import Mathlib

/-!
Verification of the DevLogs backend core (`utils.py`, `backend.py`) against its
natural-language specification.

Modelling conventions of the shallow embedding:
* Python `bytes` values are `List Nat` whose elements are below 256.
* Python `str` values are `List Nat` of Unicode code points.
* Python machine-independent `int` fields are `Int`.
* A Python function that can raise is embedded as an `Option`- or
  `Except`-valued function; `none` / `.error` marks the raising paths.
* The AES-CBC block transformation supplied by the external `Crypto` library
  is abstracted as a function parameter `enc`/`dec : List Nat → List Nat`;
  the library's correctness (decrypting with the same key and IV inverts
  encrypting) is taken as a hypothesis where a round trip is proved.
-/

namespace DevLogs

/-! ## Codec (utils.py) -/

/-- Reversed base-16 digits (little-endian), with explicit fuel so the
definition is structurally recursive and reduces by evaluation.  The fuel
`n` itself always suffices since the argument shrinks by a factor of 16. -/
def natToHexRevAux : Nat → Nat → List Nat
  | 0, _ => []
  | _ + 1, 0 => []
  | fuel + 1, n + 1 => ((n + 1) % 16) :: natToHexRevAux fuel ((n + 1) / 16)

/-- Reversed base-16 digits of a natural number (little-endian), empty for 0.
Helper for embedding Python `hex(n)[2:]`. -/
def natToHexRev (n : Nat) : List Nat := natToHexRevAux n n

/-- Big-endian hex digit values of `n`, as produced by Python `hex(n)[2:]`
(`hex(0)[2:] = "0"`, so 0 yields `[0]`). -/
def hexDigits (n : Nat) : List Nat :=
  if n = 0 then [0] else (natToHexRev n).reverse

/-- The digit-value sequence of the string literal `'0123456789abcdef'`
appearing in `hex_to_bytes` (utils.py line 30). -/
def hexRun : List Nat := [0, 1, 2, 3, 4, 5, 6, 7, 8, 9, 10, 11, 12, 13, 14, 15]

/-- Python substring test `p in l` on digit-value lists (contiguous
occurrence; the empty pattern always matches, as in Python). -/
def isSubstringOf (p l : List Nat) : Bool :=
  l.tails.any fun t => p.isPrefixOf t

/-- Embedding of `bytes.fromhex` on an even-length list of hex digit values:
consecutive digit pairs become bytes. -/
def fromhexPairs : List Nat → List Nat
  | d1 :: d2 :: rest => (16 * d1 + d2) :: fromhexPairs rest
  | _ => []

/-- Embedding of `hex_to_bytes` (utils.py lines 21-33) on the digit values of
a valid lowercase hex string.  The function zero-pads odd-length input, then —
faithfully to the source's odd special case — if the padded digit string is a
substring of `'0123456789abcdef'` it builds `bytes([int(hexstr, 16)])`, which
raises `ValueError` (embedded as `none`) whenever that integer is ≥ 256;
otherwise it uses `bytes.fromhex`. -/
def hex_to_bytes (ds : List Nat) : Option (List Nat) :=
  let p := if ds.length % 2 = 1 then 0 :: ds else ds
  if isSubstringOf p hexRun then
    let k := p.foldl (fun a d => 16 * a + d) 0
    if k < 256 then some [k] else none
  else
    some (fromhexPairs p)

/-- Embedding of `num_to_bytes` (utils.py lines 45-51):
`hex_to_bytes(hex(num)[2:])`.  For negative `num`, Python's `hex` emits a
leading `-` so the slice `[2:]` still contains the letter `x`, which makes
`bytes.fromhex` raise `ValueError` — embedded as `none`. -/
def num_to_bytes (num : Int) : Option (List Nat) :=
  if num < 0 then none else hex_to_bytes (hexDigits num.toNat)

/-- Embedding of `bytes_to_hex` (utils.py lines 36-42): `byteseq.hex()`,
each byte contributing its two hex digit values. -/
def bytes_to_hex (byteseq : List Nat) : List Nat :=
  byteseq.flatMap fun b => [b / 16, b % 16]

/-- Embedding of Python `int(hexstr, 16)`: fails (`ValueError`) on the empty
string, otherwise folds up the digit values. -/
def parseHex (ds : List Nat) : Option Nat :=
  if ds.isEmpty then none else some (ds.foldl (fun a d => 16 * a + d) 0)

/-- Embedding of `bytes_to_num` (utils.py lines 54-60):
`int(bytes_to_hex(byteseq), 16)`.  On empty input `int('', 16)` raises
`ValueError`, embedded as `none`. -/
def bytes_to_num (byteseq : List Nat) : Option Nat :=
  parseHex (bytes_to_hex byteseq)

/-- Embedding of `bytes_fixlen` (utils.py lines 63-73): when the sequence is
longer than `length` it keeps the first `length` bytes (`byteseq[:length]`),
otherwise it left-pads with zero bytes. -/
def bytes_fixlen (byteseq : List Nat) (length : Nat) : List Nat :=
  if byteseq.length > length then byteseq.take length
  else List.replicate (length - byteseq.length) 0 ++ byteseq

/-- Big-endian value of a byte list (specification-level reading used to
state what `bytes_to_num` computes). -/
def beValue (l : List Nat) : Nat :=
  l.foldl (fun a b => 256 * a + b) 0

lemma foldl_hex_of_bytes (l : List Nat) (a : Nat) :
    (l.flatMap fun b => [b / 16, b % 16]).foldl (fun x d => 16 * x + d) a =
      l.foldl (fun x b => 256 * x + b) a := by
  induction l generalizing a with
  | nil => rfl
  | cons b rest ih =>
    have hb := Nat.div_add_mod b 16
    simp only [List.flatMap_cons, List.foldl_append, List.foldl_cons, List.foldl_nil, ih]
    congr 1
    omega

end DevLogs

namespace DevLogs

/-! ## Claims C7, C8, C9 : the codec -/

/-- C7 (counterexample): the claim states that `fixLength` left-truncates,
keeping the LAST `n` bytes, when the input is longer than `n`.  The code
(`byteseq[:length]`) keeps the FIRST `n` bytes: on `[1,2,3]` with width 2 it
returns `[1,2]`, not the claimed `[2,3]`. -/
theorem claim_C7_counterexample :
    bytes_fixlen [1, 2, 3] 2 = [1, 2] ∧ bytes_fixlen [1, 2, 3] 2 ≠ [2, 3] := by
  decide

/-- C7 (amended): `bytes_fixlen b n` always has length `n`; it left-pads
with zero bytes when `b` is no longer than `n`, and right-truncates — keeps
the first `n` bytes, dropping the trailing ones — when `b` is longer. -/
theorem claim_C7 : ∀ (l : List Nat) (n : Nat),
    (bytes_fixlen l n).length = n ∧
    (l.length ≤ n → bytes_fixlen l n = List.replicate (n - l.length) 0 ++ l) ∧
    (n ≤ l.length → bytes_fixlen l n = l.take n) := by
  intro l n
  refine ⟨?_, ?_, ?_⟩
  · unfold bytes_fixlen
    by_cases h : l.length > n
    · rw [if_pos h, List.length_take]; omega
    · rw [if_neg h, List.length_append, List.length_replicate]; omega
  · intro hle
    unfold bytes_fixlen
    rw [if_neg (by omega)]
  · intro hge
    unfold bytes_fixlen
    by_cases h : l.length > n
    · rw [if_pos h]
    · have hlen : l.length = n := by omega
      subst hlen
      simp

/-- C7 (witness): concrete instances of the amended claim — padding a short
sequence and truncating a long one. -/
theorem claim_C7_witness :
    bytes_fixlen [1] 3 = List.replicate (3 - [1].length) 0 ++ [1] ∧
    bytes_fixlen [1, 2, 3] 2 = [1, 2, 3].take 2 :=
  ⟨(claim_C7 [1] 3).2.1 (by decide), (claim_C7 [1, 2, 3] 2).2.2 (by decide)⟩

/-- C8 (code bug evaluated): the claim says `numberToBytes` is defined for
every nonnegative integer, but the source's special case in `hex_to_bytes`
(`hexstr not in '0123456789abcdef'`) routes any number whose zero-padded hex
digits form a 4-or-more-character ascending run — 0x123 = 291, 0x1234 = 4660,
… — into `bytes([int(hexstr, 16)])`, which raises `ValueError` because the
integer exceeds 255.  Neighboring values 290 and 292 encode fine, showing the
failure is an accident of the digit pattern, not a range limit. -/
theorem claim_C8_eval :
    num_to_bytes 291 = none ∧
    num_to_bytes 4660 = none ∧
    num_to_bytes 290 = some [1, 34] ∧
    num_to_bytes 292 = some [1, 36] ∧
    num_to_bytes (-5) = none := by
  decide

/-- C9 (counterexample): the claim states that `bytesToNumber` of the empty
byte sequence returns 0; the source computes `int('', 16)`, which raises
`ValueError` — embedded as `none`, not `some 0`. -/
theorem claim_C9_counterexample :
    bytes_to_num [] = none ∧ bytes_to_num [] ≠ some 0 := by
  decide

/-- C9 (amended): `bytes_to_num` decodes every NONEMPTY byte sequence as the
big-endian unsigned integer `Σ bᵢ·256^(n-1-i)` (expressed as the left fold
`beValue`); on the empty sequence it fails (raises `ValueError`) rather than
returning 0. -/
theorem claim_C9 : ∀ l : List Nat, l ≠ [] → bytes_to_num l = some (beValue l) := by
  intro l hl
  match l, hl with
  | b :: rest, _ =>
    unfold bytes_to_num parseHex bytes_to_hex
    rw [if_neg (by simp)]
    rw [foldl_hex_of_bytes]
    rfl

/-- C9 (witness): a concrete nonempty decode, `[1, 0] ↦ 256`. -/
theorem claim_C9_witness : bytes_to_num [1, 0] = some (beValue [1, 0]) :=
  claim_C9 [1, 0] (by decide)

/-! ## UTF-8 (embedding Python `str.encode('utf-8')` / `bytes.decode('utf-8')`) -/

/-- UTF-8 encoding of one Unicode code point (standard encoder used by
Python's `str.encode('utf-8')` for valid scalar values). -/
def utf8EncodeChar (c : Nat) : List Nat :=
  if c < 0x80 then [c]
  else if c < 0x800 then [0xC0 + c / 64, 0x80 + c % 64]
  else if c < 0x10000 then [0xE0 + c / 4096, 0x80 + c / 64 % 64, 0x80 + c % 64]
  else [0xF0 + c / 262144, 0x80 + c / 4096 % 64, 0x80 + c / 64 % 64, 0x80 + c % 64]

/-- UTF-8 encoding of a code-point string. -/
def utf8Encode (s : List Nat) : List Nat :=
  s.flatMap utf8EncodeChar

/-- Strict UTF-8 decoder, as Python's `bytes.decode('utf-8')`: rejects
truncated sequences, stray continuation bytes, overlong forms, surrogates and
values above U+10FFFF, raising `UnicodeDecodeError` (embedded as `none`). -/
def utf8Decode : List Nat → Option (List Nat)
  | [] => some []
  | b :: rest =>
    if b < 0x80 then
      (utf8Decode rest).map (b :: ·)
    else if b < 0xC2 then none
    else if b < 0xE0 then
      match rest with
      | b2 :: rest2 =>
        if 0x80 ≤ b2 ∧ b2 < 0xC0 then
          (utf8Decode rest2).map (((b - 0xC0) * 64 + (b2 - 0x80)) :: ·)
        else none
      | [] => none
    else if b < 0xF0 then
      match rest with
      | b2 :: b3 :: rest3 =>
        if (if b = 0xE0 then 0xA0 ≤ b2 ∧ b2 < 0xC0
            else if b = 0xED then 0x80 ≤ b2 ∧ b2 < 0xA0
            else 0x80 ≤ b2 ∧ b2 < 0xC0) ∧ 0x80 ≤ b3 ∧ b3 < 0xC0 then
          (utf8Decode rest3).map
            (((b - 0xE0) * 4096 + (b2 - 0x80) * 64 + (b3 - 0x80)) :: ·)
        else none
      | _ => none
    else if b < 0xF5 then
      match rest with
      | b2 :: b3 :: b4 :: rest4 =>
        if (if b = 0xF0 then 0x90 ≤ b2 ∧ b2 < 0xC0
            else if b = 0xF4 then 0x80 ≤ b2 ∧ b2 < 0x90
            else 0x80 ≤ b2 ∧ b2 < 0xC0) ∧
            0x80 ≤ b3 ∧ b3 < 0xC0 ∧ 0x80 ≤ b4 ∧ b4 < 0xC0 then
          (utf8Decode rest4).map
            (((b - 0xF0) * 262144 + (b2 - 0x80) * 4096 + (b3 - 0x80) * 64 +
              (b4 - 0x80)) :: ·)
        else none
      | _ => none
    else none

/-! ## Entry model (backend.py lines 30-118) -/

/-- The persistent fields of `Entry`:`title` and `entry` are code-point
strings, `entry_num` and the two nanosecond timestamps are Python integers. -/
structure EntryData where
  title : List Nat
  entry : List Nat
  entry_num : Int
  time_created : Int
  time_last_update : Int
deriving DecidableEq

/-- Embedding of `Entry.dumps` (backend.py lines 68-98):
`[1] title_length  [N] title utf-8  [4] entry_num  [8] time_created
[8] time_last_update  [rest] entry utf-8`.  Note the source computes
`len(self.title)` — the CHARACTER count of the Python `str` — for the length
prefix, while the title field itself holds the UTF-8 bytes.  `num_to_bytes`
failures (negative values, the C8 digit-run bug) propagate as `none`. -/
def entryDumps (e : EntryData) : Option (List Nat) := do
  let tl ← num_to_bytes (e.title.length : Int)
  let title_len := bytes_fixlen tl 1
  let title := utf8Encode e.title
  let en ← num_to_bytes e.entry_num
  let entry_num := bytes_fixlen en 4
  let tc ← num_to_bytes e.time_created
  let time_created := bytes_fixlen tc 8
  let tlu ← num_to_bytes e.time_last_update
  let time_last_update := bytes_fixlen tlu 8
  let entry := utf8Encode e.entry
  pure (title_len ++ title ++ entry_num ++ time_created ++ time_last_update ++ entry)

/-- Error kinds a Python parsing function can raise. -/
inductive PyErr
  | valueError
  | unicodeDecodeError
deriving DecidableEq

instance {ε α : Type} [DecidableEq ε] [DecidableEq α] : DecidableEq (Except ε α) := fun
  | .ok a, .ok b => decidable_of_iff (a = b) (by simp)
  | .ok _, .error _ => isFalse (by simp)
  | .error _, .ok _ => isFalse (by simp)
  | .error e, .error f => decidable_of_iff (e = f) (by simp)

/-- Lift an optional value, raising `ValueError` on `none` (the behavior of
`bytes_to_num` on an empty slice). -/
def liftV : Option α → Except PyErr α
  | some a => .ok a
  | none => .error .valueError

/-- Lift an optional value, raising `UnicodeDecodeError` on `none` (the
behavior of `bytes.decode('utf-8')` on invalid input). -/
def liftU : Option α → Except PyErr α
  | some a => .ok a
  | none => .error .unicodeDecodeError

/-- Embedding of `Entry.loads` (backend.py lines 39-66).  Python slicing
`raw_data[r : r+k]` never raises; it just yields a short (possibly empty)
slice, so short input surfaces as `bytes_to_num` seeing an empty slice
(`ValueError`) or as a truncated title failing UTF-8 decoding. -/
def entryLoads (raw : List Nat) : Except PyErr EntryData := do
  let title_len ← liftV (bytes_to_num (raw.take 1))
  let title ← liftU (utf8Decode ((raw.drop 1).take title_len))
  let r := 1 + title_len
  let entry_num ← liftV (bytes_to_num ((raw.drop r).take 4))
  let time_created ← liftV (bytes_to_num ((raw.drop (r + 4)).take 8))
  let time_last_update ← liftV (bytes_to_num ((raw.drop (r + 12)).take 8))
  let entry ← liftU (utf8Decode (raw.drop (r + 20)))
  pure ⟨title, entry, (entry_num : Int), (time_created : Int), (time_last_update : Int)⟩

/-! ## Claim C1 : Entry round trip -/

/-- A concrete entry whose title is the single character U+00E9 (é): one
character, two UTF-8 bytes. -/
def entryC1 : EntryData := ⟨[0xE9], [], 0, 0, 0⟩

/-- C1 (code bug evaluated): the claim — and the wire-format table in the
spec — says the 1-byte `title_length` counts UTF-8 BYTES, making
`loads ∘ dumps` the identity for any title of at most 255 UTF-8 bytes.  The
source's `Entry.dumps` instead writes `len(self.title)`, the CHARACTER count,
while `Entry.loads` slices that many BYTES, so the two halves of the codec
disagree whenever the title contains a non-ASCII character.  For the
single-character title "é" (2 UTF-8 bytes): `dumps` emits length byte 1
followed by `[0xC3, 0xA9]`, and `loads` then tries to decode `[0xC3]` alone,
which raises `UnicodeDecodeError` instead of reproducing the entry. -/
theorem claim_C1_eval :
    entryDumps entryC1 =
      some ([1] ++ [0xC3, 0xA9] ++ List.replicate 20 0) ∧
    (entryDumps entryC1).map entryLoads =
      some (.error .unicodeDecodeError) := by
  decide

/-! ## Cipher envelope (utils.py lines 104-176)

The AES-CBC block transformation performed by the external `Crypto` library
under a fixed key and IV is abstracted as a function `enc` (respectively
`dec`) on byte lists; the library's guarantee that decryption under the same
key and IV inverts encryption is the hypothesis `∀ x, dec (enc x) = x` of the
round-trip claim. -/

/-- Embedding of `AESEncrypt.__pad` (utils.py lines 158-168) on bytes:
appends `16 - len % 16` copies of that same value (PKCS#7-style; a full
padding block when the length is already a multiple of 16). -/
def aes_pad (msg : List Nat) : List Nat :=
  msg ++ List.replicate (16 - msg.length % 16) (16 - msg.length % 16)

/-- Embedding of `AESEncrypt.__unpad` (utils.py lines 170-176):
`msg[:-ord(msg[len(msg)-1:])]`.  On empty input `ord(b'')` raises
(`none`); a last byte of 0 yields `msg[:-0] = msg[:0] = b''`; otherwise the
last byte many trailing bytes are dropped (everything, if it exceeds the
length). -/
def aes_unpad (msg : List Nat) : Option (List Nat) :=
  msg.getLast?.map fun k => if k = 0 then [] else msg.take (msg.length - k)

/-- Embedding of `AESEncrypt.encrypt` (utils.py lines 119-136): pad, then
emit `iv || cipher(padded)`. -/
def aes_encrypt (enc : List Nat → List Nat) (iv msg : List Nat) : List Nat :=
  iv ++ enc (aes_pad msg)

/-- Embedding of `AESEncrypt.decrypt` (utils.py lines 138-156): split off the
16-byte IV, apply the block decryption, unpad, and — via `if result:` —
return `None` (here `none`) when the unpadded result is empty. -/
def aes_decrypt (dec : List Nat → List Nat) (encrypted : List Nat) : Option (List Nat) :=
  match aes_unpad (dec (encrypted.drop 16)) with
  | none => none
  | some r => if r = [] then none else some r

lemma getLast?_replicate_of_pos {n : Nat} (x : Nat) (h : 0 < n) :
    (List.replicate n x).getLast? = some x := by
  induction n with
  | zero => omega
  | succ m ih =>
    cases Nat.eq_zero_or_pos m with
    | inl h0 => subst h0; rfl
    | inr hm =>
      rw [List.replicate_succ, List.getLast?_cons, ih hm]
      rfl

lemma aes_unpad_pad (p : List Nat) : aes_unpad (aes_pad p) = some p := by
  unfold aes_unpad aes_pad
  set k := 16 - p.length % 16 with hk
  have hkpos : 0 < k := by
    have : p.length % 16 < 16 := Nat.mod_lt _ (by omega)
    omega
  have hne : List.replicate k k ≠ [] := by
    intro hcontra
    have := congrArg List.length hcontra
    simp at this
    omega
  rw [List.getLast?_append_of_ne_nil _ hne, getLast?_replicate_of_pos _ hkpos,
    Option.map_some']
  rw [if_neg (by omega), List.length_append, List.length_replicate,
    Nat.add_sub_cancel, List.take_left]

/-! ## Claim C10 : cipher envelope round trip -/

/-- C10 (confirmed): for any block transformation pair that invert each
other (the library guarantee for one AES key), a 16-byte IV and any byte
plaintext, decrypting the output of `encrypt` returns exactly the original
plaintext when it is nonempty, and `None` — not the empty byte string — when
the plaintext is empty, because `decrypt`'s final `if result:` treats the
correctly recovered `b''` as falsy.  Genuine empty content is therefore not
representable as a successful decrypt result. -/
theorem claim_C10 : ∀ (enc dec : List Nat → List Nat) (iv p : List Nat),
    (∀ x, dec (enc x) = x) → iv.length = 16 →
    aes_decrypt dec (aes_encrypt enc iv p) = if p = [] then none else some p := by
  intro enc dec iv p hinv hiv
  unfold aes_encrypt aes_decrypt
  rw [List.drop_left' hiv, hinv, aes_unpad_pad]

/-- C10 (witness): with the identity transformation pair, a zero IV, and the
plaintexts `[1,2,3]` and `[]`: the nonempty plaintext round-trips and the
empty one yields `none`. -/
theorem claim_C10_witness :
    aes_decrypt id (aes_encrypt id (List.replicate 16 0) [1, 2, 3]) =
      (if ([1, 2, 3] : List Nat) = [] then none else some [1, 2, 3]) ∧
    aes_decrypt id (aes_encrypt id (List.replicate 16 0) []) =
      (if ([] : List Nat) = [] then none else some []) :=
  ⟨claim_C10 id id _ [1, 2, 3] (fun _ => rfl) (by decide),
   claim_C10 id id _ [] (fun _ => rfl) (by decide)⟩

/-! ## Account model (backend.py lines 121-389)

The password-to-key derivation `sha256(PEPPER + raw_password + salt)` calls
the external `_sha256` library; like the cipher it is abstracted: the derived
key under the freshly drawn salt enters `accountParse` as the parameter
`newKey`, and the CBC decryption under the candidate key is the parameter
`dec`. -/

/-- The persistent fields of `Account`: `username` is a code-point string,
`password` the 32-byte derived key digest, `salt` the 32-byte value stored in
front of the ciphertext. -/
structure AccountData where
  username : List Nat
  password : List Nat
  salt : List Nat
  time_created : Int
  entries : List EntryData
deriving DecidableEq

/-- Embedding of `Account.dumps` (backend.py lines 274-310): plaintext body
`[32] username  [32] password digest  [8] created  [2] entry count` followed
by `[3] size || entry` blocks, the whole encrypted and prefixed with the
account's CURRENT in-memory salt (`salt = self.salt`, line 303 — no fresh
salt is drawn here).  `iv` is the random IV drawn inside `encrypt`, `enc`
the abstracted CBC encryption under `self.password`. -/
def accountDumps (a : AccountData) (iv : List Nat) (enc : List Nat → List Nat) :
    Option (List Nat) := do
  let username := bytes_fixlen (utf8Encode a.username) 32
  let tc ← num_to_bytes a.time_created
  let time_created := bytes_fixlen tc 8
  let ne ← num_to_bytes (a.entries.length : Int)
  let num_entries := bytes_fixlen ne 2
  let entries ← a.entries.mapM entryDumps
  let sizes ← entries.mapM fun raw_e => num_to_bytes (raw_e.length : Int)
  let entry_sizes := sizes.map fun e_size => bytes_fixlen e_size 3
  let entries_data := (List.zipWith (· ++ ·) entry_sizes entries).flatten
  let raw_data := username ++ a.password ++ time_created ++ num_entries ++ entries_data
  pure (a.salt ++ aes_encrypt enc iv raw_data)

/-- Embedding of `Account.checks_auth` (backend.py lines 150-171): empty file
data short-circuits to the empty string `''` (length 0, flagged invalid
downstream); otherwise the 32-byte salt is split off and the remainder
decrypted under the candidate key (the derivation `sha256(PEPPER + password +
salt)` is folded into the abstract `dec`).  `none` is `decrypt` returning
`None`. -/
def checks_auth (dec : List Nat → List Nat) (encrypted_data : List Nat) :
    Option (List Nat) :=
  if encrypted_data.length = 0 then some []
  else aes_decrypt dec (encrypted_data.drop 32)

/-- Embedding of Python `str.strip('\x00')` on code points: removes leading
and trailing NUL characters. -/
def stripNulChar (s : List Nat) : List Nat :=
  ((s.dropWhile (· = 0)).reverse.dropWhile (· = 0)).reverse

/-- Embedding of the entry loop of `Account.loads` (backend.py lines
239-243): for each of `num_entries` iterations read a 3-byte size, slice that
many bytes, and hand them to `Entry.loads`. -/
def parseEntriesLoop : Nat → List Nat → Except PyErr (List EntryData)
  | 0, _ => pure []
  | k + 1, rem => do
    let entry_size ← liftV (bytes_to_num (rem.take 3))
    let e ← entryLoads ((rem.drop 3).take entry_size)
    let rest ← parseEntriesLoop k (rem.drop (3 + entry_size))
    pure (e :: rest)

/-- The observable outcomes of `Account.loads`: a returned account, the two
raised domain errors, or an uncaught `ValueError` (the `except IndexError`
clause at line 244 is dead code — Python slicing never raises `IndexError`,
and `bytes_to_num` on an empty slice raises `ValueError`, which no handler
catches). -/
inductive LoadsResult
  | ok (a : AccountData)
  | invalidCredentials
  | invalidAccountFormat
  | valueError
deriving DecidableEq

/-- Embedding of `Account.loads` after `checks_auth` (backend.py lines
210-256).  `raw_data = none` (decrypt returned `None`) raises
`InvalidCredentials`; a plaintext shorter than 32+32+8+2 bytes raises
`InvalidAccountFormat`; then the body is parsed, `UnicodeDecodeError`
becoming `InvalidAccountFormat` and `ValueError` escaping uncaught.  On
success the account carries the freshly drawn salt (`token_bytes(32)`, line
225) and the key re-derived under it (`newKey`). -/
def accountParseSome (freshSalt newKey : List Nat) (l : List Nat) : LoadsResult :=
  if l.length < 32 + 32 + 8 + 2 then .invalidAccountFormat
  else
    match (do
      let username ← liftU (utf8Decode (l.take 32))
      let time_created ← liftV (bytes_to_num ((l.drop 64).take 8))
      let num_entries ← liftV (bytes_to_num ((l.drop 72).take 2))
      let entries ← parseEntriesLoop num_entries (l.drop 74)
      pure (stripNulChar username, time_created, entries) :
        Except PyErr (List Nat × Nat × List EntryData)) with
    | .error .valueError => .valueError
    | .error .unicodeDecodeError => .invalidAccountFormat
    | .ok (un, tc, es) => .ok ⟨un, newKey, freshSalt, (tc : Int), es⟩

/-- Dispatch on whether `checks_auth` produced any plaintext at all
(`raw_data is None` ⇒ `InvalidCredentials`, line 220). -/
def accountParse (freshSalt newKey : List Nat) : Option (List Nat) → LoadsResult
  | none => .invalidCredentials
  | some l => accountParseSome freshSalt newKey l

/-- Embedding of `Account.loads` (backend.py lines 210-256) end to end:
decrypt-and-check, then parse. -/
def accountLoads (dec : List Nat → List Nat) (freshSalt newKey : List Nat)
    (encrypted_data : List Nat) : LoadsResult :=
  accountParse freshSalt newKey (checks_auth dec encrypted_data)

/-! ## Claim C2 : wrong-password load outcomes -/

/-- A 74-byte garbage plaintext whose entry count claims one entry but whose
entry table is empty: `num_entries = 1`, nothing after the header. -/
def garbageC2a : List Nat := List.replicate 73 0 ++ [1]

/-- A 74-byte all-zero garbage plaintext: empty (NUL-stripped) username,
zero timestamps, zero entries — structurally a complete account body. -/
def garbageC2b : List Nat := List.replicate 74 0

/-- A well-formed envelope (32-byte salt, 16-byte IV, padded 80-byte
ciphertext block) whose decryption under the wrong-password key is modelled
by `id`: the payload unpads to `garbageC2a`. -/
def fileC2a : List Nat :=
  List.replicate 32 0 ++ List.replicate 16 0 ++ (garbageC2a ++ List.replicate 6 6)

/-- The same envelope shape whose payload unpads to `garbageC2b`. -/
def fileC2b : List Nat :=
  List.replicate 32 0 ++ List.replicate 16 0 ++ (garbageC2b ++ List.replicate 6 6)

set_option maxRecDepth 4096

/-- Placeholder for the fresh salt drawn inside `Account.loads`. -/
def saltW : List Nat := List.replicate 32 1

/-- Placeholder for the key re-derived inside `Account.loads`. -/
def keyW : List Nat := List.replicate 32 2

/-- C2 (counterexample): the claim says a load under a wrong password always
terminates with exactly `InvalidCredentials` or `InvalidAccountFormat` and
never returns an account.  Taking the wrong-password block decryption to be
the transformation that yields the garbage plaintexts above: on `fileC2a` the
parse hits `bytes_to_num` of an empty slice — `int('', 16)` — and an uncaught
`ValueError` escapes (the `except IndexError` handler is dead because slicing
never raises `IndexError`); on `fileC2b` the garbage parses to completion and
a structurally valid account IS returned silently.  Both outcomes differ from
the two permitted error kinds. -/
theorem claim_C2_counterexample :
    accountLoads id saltW keyW fileC2a = .valueError ∧
    accountLoads id saltW keyW fileC2b = .ok ⟨[], keyW, saltW, 0, []⟩ ∧
    LoadsResult.valueError ≠ .invalidCredentials ∧
    LoadsResult.valueError ≠ .invalidAccountFormat ∧
    LoadsResult.ok ⟨[], keyW, saltW, 0, []⟩ ≠ .invalidCredentials ∧
    LoadsResult.ok ⟨[], keyW, saltW, 0, []⟩ ≠ .invalidAccountFormat := by
  refine ⟨by decide, by decide, by decide, by decide, by decide, by decide⟩

/-- C2 (amended): what the code does guarantee about a wrong-password load:
when the decrypt-unpad stage signals failure (`decrypt` returned `None`) the
load raises `InvalidCredentials`; when it hands back a plaintext shorter than
the 74-byte minimum header, or one whose 32-byte username field is not valid
UTF-8, the load raises `InvalidAccountFormat`.  Beyond these guarantees,
garbage plaintext may also parse into a silently returned account or escape
with an uncaught `ValueError` (see the counterexample). -/
theorem claim_C2 : ∀ (freshSalt newKey : List Nat) (raw : Option (List Nat)),
    (raw = none → accountParse freshSalt newKey raw = .invalidCredentials) ∧
    (∀ l, raw = some l → l.length < 74 →
      accountParse freshSalt newKey raw = .invalidAccountFormat) ∧
    (∀ l, raw = some l → ¬ l.length < 74 → utf8Decode (l.take 32) = none →
      accountParse freshSalt newKey raw = .invalidAccountFormat) := by
  intro freshSalt newKey raw
  refine ⟨?_, ?_, ?_⟩
  · intro h; subst h; rfl
  · intro l h hlen
    subst h
    show accountParseSome freshSalt newKey l = _
    unfold accountParseSome
    rw [if_pos (by omega)]
  · intro l h hlen hdec
    subst h
    show accountParseSome freshSalt newKey l = _
    unfold accountParseSome
    rw [if_neg (by omega), hdec]
    rfl

/-- C2 (witness): concrete instances of the three guaranteed branches. -/
theorem claim_C2_witness :
    accountParse saltW keyW none = .invalidCredentials ∧
    accountParse saltW keyW (some [0]) = .invalidAccountFormat ∧
    accountParse saltW keyW (some ([0xC3] ++ List.replicate 73 0)) =
      .invalidAccountFormat :=
  ⟨(claim_C2 saltW keyW none).1 rfl,
   (claim_C2 saltW keyW (some [0])).2.1 [0] rfl (by decide),
   (claim_C2 saltW keyW (some ([0xC3] ++ List.replicate 73 0))).2.2
     ([0xC3] ++ List.replicate 73 0) rfl (by decide) (by decide)⟩

/-! ## Claim C3 : salt handling on serialization -/

/-- A concrete in-memory account used to exercise `accountDumps`. -/
def acctC3 : AccountData :=
  ⟨[97], List.replicate 32 2, List.replicate 32 7, 0, []⟩

/-- C3 (counterexample): the claim says every serialization generates a
brand-new salt, so the stored salts of any two serializations differ.  But
`Account.dumps` writes `self.salt` unchanged (line 303); serializing the same
in-memory account twice (two independent random IVs standing in for the two
calls) stores the identical salt both times. -/
theorem claim_C3_counterexample :
    (accountDumps acctC3 (List.replicate 16 0) id).map (List.take 32) =
      some acctC3.salt ∧
    (accountDumps acctC3 (List.replicate 16 1) id).map (List.take 32) =
      some acctC3.salt := by
  refine ⟨by decide, by decide⟩

/-- C3 (amended): the salt is rotated when an account object is CREATED or
LOADED, not when it is serialized: every successful `dumps` output begins
with the account's current in-memory salt verbatim, and every successful
`loads` installs the freshly drawn salt into the returned account (so two
saves with an intervening load do store different random salts, but two saves
of the same in-memory state store the same one). -/
theorem claim_C3 :
    (∀ (a : AccountData) (iv : List Nat) (enc : List Nat → List Nat) (d : List Nat),
      a.salt.length = 32 → accountDumps a iv enc = some d → d.take 32 = a.salt) ∧
    (∀ (freshSalt newKey : List Nat) (raw : Option (List Nat)) (acc : AccountData),
      accountParse freshSalt newKey raw = .ok acc → acc.salt = freshSalt) := by
  constructor
  · intro a iv enc d hsalt hd
    simp only [accountDumps, Option.bind_eq_bind', Option.bind_eq_some', Option.pure_def,
      Option.some.injEq] at hd
    obtain ⟨tc, htc, ne, hne, es, hes, sz, hsz, hd⟩ := hd
    rw [← hd]
    exact List.take_left' hsalt
  · intro freshSalt newKey raw acc h
    match raw, h with
    | none, h => simp [accountParse] at h
    | some l, h =>
      replace h : accountParseSome freshSalt newKey l = .ok acc := h
      unfold accountParseSome at h
      by_cases hlen : l.length < 32 + 32 + 8 + 2
      · rw [if_pos hlen] at h
        exact absurd h (by simp)
      · rw [if_neg hlen] at h
        split at h
        · exact absurd h (by simp)
        · exact absurd h (by simp)
        · rw [LoadsResult.ok.injEq] at h
          rw [← h]

/-- C3 (witness): the dumps of the concrete account starts with its stored
salt, and a parse of the all-zero body installs the fresh salt. -/
theorem claim_C3_witness :
    ((accountDumps acctC3 (List.replicate 16 0) id).getD []).take 32 = acctC3.salt ∧
    (AccountData.mk [] keyW saltW 0 []).salt = saltW :=
  ⟨claim_C3.1 acctC3 (List.replicate 16 0) id
      ((accountDumps acctC3 (List.replicate 16 0) id).getD []) (by decide) rfl,
   claim_C3.2 saltW keyW (some (List.replicate 74 0)) ⟨[], keyW, saltW, 0, []⟩
      (by decide)⟩

/-! ## Entry mutations (backend.py lines 351-389)

Python locates the argument object with `self.entries.index(entry)`; the
embedding takes that index `i` directly.  The mutation of the shared `Entry`
objects becomes functional update of list elements. -/

/-- Embedding of `Account.add_entry` (lines 351-357): append a fresh entry
whose `entry_num` is the current list length; `t` is the `time_ns()` value
the `Entry` constructor stamps on both timestamps. -/
def add_entry (l : List EntryData) (title entry : List Nat) (t : Int) : List EntryData :=
  l ++ [⟨title, entry, (l.length : Int), t, t⟩]

/-- Embedding of `Account.del_entry` (lines 359-367): remove the entry at
index `i` and decrement `entry_num` of every entry after it. -/
def del_entry (l : List EntryData) (i : Nat) : List EntryData :=
  l.take i ++ (l.drop (i + 1)).map fun e => { e with entry_num := e.entry_num - 1 }

/-- Embedding of `Account.move_entry_up` (lines 369-378).  For `index > 0`
the source decrements the moved entry's `entry_num`, relocates it one slot
earlier (`insert(index-1, pop(index))`), and then — because slot `index` now
holds the displaced former neighbor — increments THAT entry's `entry_num`.
Expressed over the decomposition `l = take (i-1) ++ a :: b :: rest` (with `b`
the moved entry and `a` its displaced neighbor) the result is
`take (i-1) ++ dec b :: inc a :: rest`; at the boundary (`i = 0`) or for an
out-of-range index the list is unchanged. -/
def move_entry_up (l : List EntryData) (i : Nat) : List EntryData :=
  if i = 0 then l
  else
    match l.drop (i - 1) with
    | a :: b :: rest =>
      l.take (i - 1) ++ { b with entry_num := b.entry_num - 1 } ::
        { a with entry_num := a.entry_num + 1 } :: rest
    | _ => l

/-- Embedding of `Account.move_entry_down` (lines 380-389), symmetric to
`move_entry_up`: for `index < len - 1` (the dropped tail has at least two
elements) the moved entry `a` at slot `i` gets `entry_num + 1`, moves one
slot later, and the displaced neighbor `b` gets `entry_num - 1`. -/
def move_entry_down (l : List EntryData) (i : Nat) : List EntryData :=
  match l.drop i with
  | a :: b :: rest =>
    l.take i ++ { b with entry_num := b.entry_num - 1 } ::
      { a with entry_num := a.entry_num + 1 } :: rest
  | _ => l

/-- Checks that the `entry_num` fields of `l` are `k, k+1, k+2, …` in list
order. -/
def posFromB : Int → List EntryData → Bool
  | _, [] => true
  | k, e :: rest => (e.entry_num == k) && posFromB (k + 1) rest

/-- The invariant of spec §3: entry positions form the contiguous sequence
`0 .. N-1` matching list order. -/
def denseB (l : List EntryData) : Bool := posFromB 0 l

lemma posFromB_map_dec : ∀ (l : List EntryData) (k : Int),
    posFromB k l = true →
    posFromB (k - 1) (l.map fun e => { e with entry_num := e.entry_num - 1 }) = true := by
  intro l
  induction l with
  | nil => intro k _; rfl
  | cons e rest ih =>
    intro k h
    simp only [posFromB, Bool.and_eq_true, beq_iff_eq] at h ⊢
    refine ⟨by omega, ?_⟩
    have := ih (k + 1) h.2
    have hk : k + 1 - 1 = k - 1 + 1 := by omega
    rwa [hk] at this

lemma posFromB_append_last : ∀ (l : List EntryData) (k : Int) (e : EntryData),
    posFromB k l = true → e.entry_num = k + l.length →
    posFromB k (l ++ [e]) = true := by
  intro l
  induction l with
  | nil =>
    intro k e _ he
    simp only [List.length_nil, Int.natCast_zero, add_zero] at he
    simp [posFromB, he]
  | cons x rest ih =>
    intro k e h he
    simp only [posFromB, Bool.and_eq_true, beq_iff_eq] at h ⊢
    refine ⟨h.1, ih (k + 1) e h.2 (by push_cast [List.length_cons] at he ⊢; omega)⟩

lemma posFromB_del : ∀ (i : Nat) (l : List EntryData) (k : Int),
    i < l.length → posFromB k l = true →
    posFromB k (l.take i ++
      (l.drop (i + 1)).map fun e => { e with entry_num := e.entry_num - 1 }) = true := by
  intro i
  induction i with
  | zero =>
    intro l k hi h
    match l, hi with
    | e :: rest, _ =>
      simp only [posFromB, Bool.and_eq_true, beq_iff_eq] at h
      have := posFromB_map_dec rest (k + 1) h.2
      simpa using this
  | succ j ih =>
    intro l k hi h
    match l, hi with
    | e :: rest, hi =>
      simp only [posFromB, Bool.and_eq_true, beq_iff_eq] at h
      simp only [List.take_succ_cons, List.drop_succ_cons, List.cons_append, posFromB,
        Bool.and_eq_true, beq_iff_eq]
      exact ⟨h.1, ih rest (k + 1) (by simpa using hi) h.2⟩

lemma posFromB_swapAdj : ∀ (l₁ : List EntryData) (a b : EntryData) (l₂ : List EntryData)
    (k : Int),
    posFromB k (l₁ ++ a :: b :: l₂) = true →
    posFromB k (l₁ ++ { b with entry_num := b.entry_num - 1 } ::
      { a with entry_num := a.entry_num + 1 } :: l₂) = true := by
  intro l₁
  induction l₁ with
  | nil =>
    intro a b l₂ k h
    simp only [List.nil_append, posFromB, Bool.and_eq_true, beq_iff_eq] at h ⊢
    obtain ⟨ha, hb, htail⟩ := h
    exact ⟨by omega, by omega, htail⟩
  | cons x rest ih =>
    intro a b l₂ k h
    simp only [List.cons_append, posFromB, Bool.and_eq_true, beq_iff_eq] at h ⊢
    exact ⟨h.1, ih a b l₂ (k + 1) h.2⟩

/-! ## Claim C4 : the move operations -/

/-- Concrete entry "A" at position 0. -/
def entA : EntryData := ⟨[65], [], 0, 0, 0⟩

/-- Concrete entry "B" at position 1. -/
def entB : EntryData := ⟨[66], [], 1, 0, 0⟩

/-- Concrete entry "C" at position 2. -/
def entC : EntryData := ⟨[67], [], 2, 0, 0⟩

/-- The 3-entry list `[A(0), B(1), C(2)]` of the spec's reordering example. -/
def ex3 : List EntryData := [entA, entB, entC]

/-- C4 (counterexample): the claim says moving B up in `[A(0), B(1), C(2)]`
changes ONLY B's stored position (to 0) and leaves the displaced neighbor
A's stored position unchanged (at 0), which would give position fields
`[0, 0, 2]` in the resulting order `[B, A, C]`.  The code updates the
neighbor too (`self.entries[index].entry_num += 1`, line 378): A's stored
position becomes 1 and the result is `[0, 1, 2]`. -/
theorem claim_C4_counterexample :
    (move_entry_up ex3 1).map (fun e => e.title) = [[66], [65], [67]] ∧
    (move_entry_up ex3 1).map (fun e => e.entry_num) = [0, 1, 2] ∧
    (move_entry_up ex3 1).map (fun e => e.entry_num) ≠ [0, 0, 2] := by
  refine ⟨by decide, by decide, by decide⟩

/-- C4 (amended): `move_entry_up` on the entry at non-boundary index
`|l₁| + 1` (and symmetrically `move_entry_down` on the entry at index `|l₁|`
with a successor) swaps the two adjacent entries, decrements the
lower-positioned result's `entry_num` by 1, increments the displaced
neighbor's `entry_num` by 1 — both stored position fields change — and
leaves every other entry and the list length untouched. -/
theorem claim_C4 : ∀ (l₁ : List EntryData) (a b : EntryData) (l₂ : List EntryData),
    move_entry_up (l₁ ++ a :: b :: l₂) (l₁.length + 1) =
      l₁ ++ { b with entry_num := b.entry_num - 1 } ::
        { a with entry_num := a.entry_num + 1 } :: l₂ ∧
    move_entry_down (l₁ ++ a :: b :: l₂) l₁.length =
      l₁ ++ { b with entry_num := b.entry_num - 1 } ::
        { a with entry_num := a.entry_num + 1 } :: l₂ := by
  intro l₁ a b l₂
  constructor
  · unfold move_entry_up
    rw [if_neg (by omega), Nat.add_sub_cancel, List.drop_left, List.take_left]
  · unfold move_entry_down
    rw [List.drop_left, List.take_left]

/-! ## Claim C5 : density invariant preservation -/

/-- C5 (confirmed): if the entry positions form the contiguous sequence
`0 .. N-1` matching list order, then each of `add_entry`, `del_entry` (at a
valid index), `move_entry_up` and `move_entry_down` (at any index, boundary
no-ops included) preserves that invariant — for the moves, precisely because
both the moved entry's and the displaced neighbor's position fields are
adjusted. -/
theorem claim_C5 : ∀ l : List EntryData, denseB l = true →
    (∀ title entry t, denseB (add_entry l title entry t) = true) ∧
    (∀ i, i < l.length → denseB (del_entry l i) = true) ∧
    (∀ i, denseB (move_entry_up l i) = true) ∧
    (∀ i, denseB (move_entry_down l i) = true) := by
  intro l h
  refine ⟨?_, ?_, ?_, ?_⟩
  · intro title entry t
    exact posFromB_append_last l 0 _ h (by push_cast; ring)
  · intro i hi
    exact posFromB_del i l 0 hi h
  · intro i
    by_cases hi : i = 0
    · subst hi; simpa [move_entry_up] using h
    · unfold move_entry_up
      rw [if_neg hi]
      cases hdrop : l.drop (i - 1) with
      | nil => exact h
      | cons a tail =>
        cases tail with
        | nil => exact h
        | cons b rest =>
          have hl : l.take (i - 1) ++ a :: b :: rest = l := by
            rw [← hdrop, List.take_append_drop]
          refine posFromB_swapAdj (l.take (i - 1)) a b rest 0 ?_
          rw [hl]
          exact h
  · intro i
    unfold move_entry_down
    cases hdrop : l.drop i with
    | nil => exact h
    | cons a tail =>
      cases tail with
      | nil => exact h
      | cons b rest =>
        have hl : l.take i ++ a :: b :: rest = l := by
          rw [← hdrop, List.take_append_drop]
        refine posFromB_swapAdj (l.take i) a b rest 0 ?_
        rw [hl]
        exact h

/-- C5 (witness): the invariant holds for `[A(0), B(1), C(2)]` and is
preserved by a concrete instance of each mutation. -/
theorem claim_C5_witness :
    denseB (add_entry ex3 [68] [] 5) = true ∧
    denseB (del_entry ex3 1) = true ∧
    denseB (move_entry_up ex3 1) = true ∧
    denseB (move_entry_down ex3 0) = true :=
  ⟨(claim_C5 ex3 (by decide)).1 [68] [] 5,
   (claim_C5 ex3 (by decide)).2.1 1 (by decide),
   (claim_C5 ex3 (by decide)).2.2.1 1,
   (claim_C5 ex3 (by decide)).2.2.2 0⟩

/-! ## Session manager (backend.py lines 421-506)

The source implements the lockout by monkey-patching `create_session` from a
daemon thread that sleeps for `hardlock_delay` seconds and then, on waking,
adds `HARDLOCK_DELAY_INCR` to the delay and restores the original method.
Following the spec's own modelling note (§9), the embedding is the induced
state machine: the `session_hardlock` flag guards a fast-fail path, and the
timer's expiry is the explicit event `lock_expire`.  The filesystem outcome
of `Account.load` enters `create_session` as the parameter `o`. -/

/-- `SessionManager.MAX_FAILED_ATTEMPTS` (backend.py line 427). -/
def MAX_FAILED_ATTEMPTS : Nat := 5

/-- `SessionManager.INIT_HARDLOCK_DELAY` (backend.py line 428). -/
def INIT_HARDLOCK_DELAY : Nat := 20

/-- `SessionManager.HARDLOCK_DELAY_INCR` (backend.py line 429). -/
def HARDLOCK_DELAY_INCR : Nat := 10

/-- The mutable state of `SessionManager`: whether a session is active
(`current_session is not None`), the `session_hardlock` flag, the
`failed_attempts` counter and the current `hardlock_delay`. -/
structure SMState where
  hasSession : Bool
  hardlock : Bool
  failed : Nat
  delay : Nat
deriving DecidableEq

/-- `SessionManager.__init__` (backend.py lines 431-439). -/
def initSM : SMState := ⟨false, false, 0, INIT_HARDLOCK_DELAY⟩

/-- The possible outcomes of the `Account.load` call inside
`create_session`. -/
inductive LoginOutcome
  | success
  | invalidCredentials
  | invalidAccountFormat
  | accountNotFound
deriving DecidableEq

/-- What a `create_session` call reports to its caller. -/
inductive CSResult
  | ok
  | sessionOngoing
  | tooManyAttempts
  | errInvalidCredentials
  | errInvalidAccountFormat
  | errAccountNotFound
deriving DecidableEq

/-- Embedding of `SessionManager.create_session` (backend.py lines 465-491)
together with the hardlocked replacement method (lines 446-452).  The result
triple is (new state, reported result, whether `Account.load` was invoked).
While hardlocked the swapped-in method raises `TooManyAttempts` before
anything else; otherwise an ongoing session raises `SessionOngoing`; then
the load outcome `o` is handled: the two authentication failures increment
`failed_attempts` and trigger `hardlock()` at the threshold, `AccountNotFound`
propagates untouched, and success resets both counter and delay and installs
the session. -/
def create_session (s : SMState) (o : LoginOutcome) : SMState × CSResult × Bool :=
  if s.hardlock then (s, .tooManyAttempts, false)
  else if s.hasSession then (s, .sessionOngoing, false)
  else
    match o with
    | .success =>
      ({ s with hasSession := true, failed := 0, delay := INIT_HARDLOCK_DELAY }, .ok, true)
    | .invalidCredentials =>
      ({ s with
          failed := s.failed + 1
          hardlock := decide (MAX_FAILED_ATTEMPTS ≤ s.failed + 1) },
       .errInvalidCredentials, true)
    | .invalidAccountFormat =>
      ({ s with
          failed := s.failed + 1
          hardlock := decide (MAX_FAILED_ATTEMPTS ≤ s.failed + 1) },
       .errInvalidAccountFormat, true)
    | .accountNotFound => (s, .errAccountNotFound, true)

/-- Embedding of the hardlock timer expiring (backend.py lines 457-461): on
waking, the thread adds `HARDLOCK_DELAY_INCR` to `hardlock_delay` and clears
the lock.  Not applicable when no lock is active. -/
def lock_expire (s : SMState) : SMState :=
  if s.hardlock then { s with hardlock := false, delay := s.delay + HARDLOCK_DELAY_INCR }
  else s

/-- One failed-credentials login attempt, viewed as a state transformer. -/
def failStep (s : SMState) : SMState := (create_session s .invalidCredentials).1

/-! ## Claim C6 : lockout state machine -/

/-- C6 (confirmed): in the login state machine — (1) five consecutive
failed attempts from the initial state trigger the lockout, four do not;
(2) any attempt while the lockout is active fails with `TooManyAttempts`,
does not attempt the account load, and changes nothing; (3) both
authentication-failure kinds increment the counter and set the lock exactly
when the counter reaches the threshold 5; (4) the cooldown starts at 20 and
each lockout episode's expiry adds 10; (5) no login attempt ever reduces the
delay except a successful one, which resets it to the initial 20; and (6) a
successful login (no lock, no ongoing session) resets the failed-attempt
counter to 0 and the delay to 20. -/
theorem claim_C6 :
    ((failStep^[4] initSM).hardlock = false ∧ (failStep^[5] initSM).hardlock = true) ∧
    (∀ (s : SMState) (o : LoginOutcome), s.hardlock = true →
      create_session s o = (s, .tooManyAttempts, false)) ∧
    (∀ (s : SMState) (o : LoginOutcome), s.hardlock = false → s.hasSession = false →
      (o = .invalidCredentials ∨ o = .invalidAccountFormat) →
      (create_session s o).1.failed = s.failed + 1 ∧
      ((create_session s o).1.hardlock = true ↔ 5 ≤ s.failed + 1)) ∧
    (initSM.delay = 20 ∧
      ∀ s : SMState, s.hardlock = true → (lock_expire s).delay = s.delay + 10) ∧
    (∀ (s : SMState) (o : LoginOutcome),
      (create_session s o).1.delay = s.delay ∨
        (o = .success ∧ (create_session s o).1.delay = 20)) ∧
    (∀ s : SMState, s.hardlock = false → s.hasSession = false →
      create_session s .success =
        ({ s with hasSession := true, failed := 0, delay := 20 }, .ok, true)) := by
  refine ⟨by decide, ?_, ?_, ⟨rfl, ?_⟩, ?_, ?_⟩
  · intro s o hl
    unfold create_session
    rw [if_pos hl]
  · intro s o hl hs ho
    unfold create_session
    rw [if_neg (by simp [hl]), if_neg (by simp [hs])]
    rcases ho with h | h <;> subst h <;>
      simp [MAX_FAILED_ATTEMPTS]
  · intro s hl
    unfold lock_expire
    rw [if_pos hl]
    rfl
  · intro s o
    unfold create_session
    by_cases hl : s.hardlock
    · rw [if_pos hl]; left; rfl
    · rw [if_neg hl]
      by_cases hs : s.hasSession
      · rw [if_pos hs]; left; rfl
      · rw [if_neg hs]
        cases o
        · right; exact ⟨rfl, rfl⟩
        · left; rfl
        · left; rfl
        · left; rfl
  · intro s hl hs
    unfold create_session
    rw [if_neg (by simp [hl]), if_neg (by simp [hs])]
    rfl

/-- C6 (witness): concrete instances — a locked state rejects a correct
password without loading; a fourth failure does not lock but a fifth does; an
expiry raises the 20 delay to 30; a success from a clean state resets counter
and delay. -/
theorem claim_C6_witness :
    create_session ⟨false, true, 5, 20⟩ .success =
      (⟨false, true, 5, 20⟩, .tooManyAttempts, false) ∧
    (create_session ⟨false, false, 3, 20⟩ .invalidCredentials).1.failed = 4 ∧
    ((create_session ⟨false, false, 4, 20⟩ .invalidAccountFormat).1.hardlock = true ↔
      5 ≤ 4 + 1) ∧
    (lock_expire ⟨false, true, 5, 20⟩).delay = 20 + 10 ∧
    create_session ⟨false, false, 5, 40⟩ .success =
      (⟨true, false, 0, 20⟩, .ok, true) :=
  ⟨claim_C6.2.1 ⟨false, true, 5, 20⟩ .success rfl,
   (claim_C6.2.2.1 ⟨false, false, 3, 20⟩ .invalidCredentials rfl rfl (Or.inl rfl)).1,
   (claim_C6.2.2.1 ⟨false, false, 4, 20⟩ .invalidAccountFormat rfl rfl (Or.inr rfl)).2,
   claim_C6.2.2.2.1.2 ⟨false, true, 5, 20⟩ rfl,
   claim_C6.2.2.2.2.2 ⟨false, false, 5, 40⟩ rfl rfl⟩

end DevLogs
